import Mathlib

/-!
Shallow embedding of the response-routing core of the Gemma3 chatbot
(`graph.py`, `rag_tool.py`, `pdf_image_tool.py`).

Pure text processing (the `tool_code` fence regex, the call-like pattern
regexes, `json.loads`) is embedded as executable functions on `List Char`.
Stateful collaborators (the two LLM call sites and the two tools) are
passed in as an explicit `Oracle` record of functions; tool and model
invocations performed by a turn are recorded in an event trace.
-/

namespace Gemma3

/-- Python `\s` / `str.strip` whitespace (ASCII range, as exercised here). -/
def isWs (c : Char) : Bool :=
  c = ' ' || c = '\t' || c = '\n' || c = '\r' || c = '\x0b' || c = '\x0c'

/-- Python `\w`: word characters (ASCII range, as exercised here). -/
def isWordChar (c : Char) : Bool :=
  c.isAlphanum || c = '_'

/-- A single or double quote, as in the regex character class holding both. -/
def isQuote (c : Char) : Bool :=
  c = '"' || c = '\x27'

/-- Python `str.strip()` on a character list. -/
def trimWs (l : List Char) : List Char :=
  ((l.dropWhile isWs).reverse.dropWhile isWs).reverse

/-- Index of the first occurrence of `pat` as a contiguous sublist, if any. -/
def findSub (pat : List Char) : List Char → Option Nat
  | [] => if pat.isPrefixOf ([] : List Char) then some 0 else none
  | c :: rest =>
    if pat.isPrefixOf (c :: rest) then some 0
    else (findSub pat rest).map (· + 1)

/-- Python `needle in haystack` on strings. -/
def containsSub (needle hay : String) : Bool :=
  (findSub needle.toList hay.toList).isSome

/-- The opening literal of `_TOOL_FENCE` in `graph.py`. -/
def fenceOpen : List Char := "```tool_code".toList

/-- The closing literal of `_TOOL_FENCE`. -/
def fenceClose : List Char := "```".toList

/--
`_TOOL_FENCE.search(text)` followed by `m.group(1).strip()`, for the regex
`r"(three backticks)tool_code\s*(.+?)\s*(three backticks)"` with `re.DOTALL`:
after the first `(three backticks)tool_code`, the greedy `\s*` and the lazy
`(.+?)` make the match end at the earliest closing fence that leaves the
group at least one character, and the group is the stripped text in between.
`w` is the run of whitespace after the opening literal; the closing fence is
sought from position `w + 1` on (the lazy group must consume one character
beyond the whitespace the engine first assigns to `\s*`); if that fails but
the closing fence sits right at position `w` with `w ≥ 1`, the engine
backtracks one whitespace character into the group, which strips to empty.
-/
def toolFenceBody (l : List Char) : Option (List Char) :=
  match findSub fenceOpen l with
  | none => none
  | some i =>
    let rest := l.drop (i + 12)
    let w := (rest.takeWhile isWs).length
    match findSub fenceClose (rest.drop (w + 1)) with
    | some j => some (trimWs (rest.take (w + 1 + j)))
    | none =>
      if w ≥ 1 && fenceClose.isPrefixOf (rest.drop w) then some ([] : List Char)
      else none

/-- Model of `_has_tool_fence` in `graph.py`: the fence regex matches at all. -/
def hasToolFence (text : String) : Bool :=
  (toolFenceBody text.toList).isSome

/-- Trailing part of the call regexes: a quote, a captured non-empty run
of non-quote characters, a quote, then close-paren after whitespace.
Returns the capture group. -/
def matchQuoted (r : List Char) : Option (List Char) :=
  match r with
  | [] => none
  | q :: r2 =>
    if isQuote q then
      let cap := r2.takeWhile (fun c => !(isQuote c))
      if cap = ([] : List Char) then none
      else
        match r2.drop cap.length with
        | [] => none
        | q2 :: r3 =>
          if isQuote q2 then
            match r3.dropWhile isWs with
            | ')' :: _ => some cap
            | _ => none
          else none
    else none

/-- Middle part `\s*\(\s*(?:query\s*=\s*)?` of the call regexes, followed by the quoted capture, with the
backtracking of the regex engine out of the optional `query =` group. -/
def matchParen (r : List Char) : Option (List Char) :=
  match r.dropWhile isWs with
  | '(' :: r2 =>
    let r3 := r2.dropWhile isWs
    if "query".toList.isPrefixOf r3 then
      match (r3.drop 5).dropWhile isWs with
      | '=' :: r5 =>
        match matchQuoted (r5.dropWhile isWs) with
        | some cap => some cap
        | none => matchQuoted r3
      | _ => matchQuoted r3
    else matchQuoted r3
  | _ => none

/-- The optional `(?:\.\w+)?` after the tool name, with backtracking. -/
def matchAfterName (r : List Char) : Option (List Char) :=
  match r with
  | '.' :: r2 =>
    let w := r2.takeWhile isWordChar
    if w = ([] : List Char) then matchParen r
    else
      match matchParen (r2.drop w.length) with
      | some cap => some cap
      | none => matchParen r
  | _ => matchParen r

/-- Try the whole call regex with the tool-name literal anchored at the head
of `l` (the position right after `(?:^|[\s;])`). -/
def matchCallAt (tool : List Char) (l : List Char) : Option (List Char) :=
  if tool.isPrefixOf l then matchAfterName (l.drop tool.length)
  else none

/-- Scan for `[\s;]` followed by the anchored call, left to right. -/
def searchCallAux (tool : List Char) : List Char → Option (List Char)
  | [] => none
  | c :: rest =>
    if isWs c || c = ';' then
      match matchCallAt tool rest with
      | some cap => some cap
      | none => searchCallAux tool rest
    else searchCallAux tool rest

/-- Model of `re.search` of one call pattern `(?:^|[\s;])tool...` over the body:
first the `^` alternative at position zero, then the scan. -/
def searchCall (tool : List Char) (body : List Char) : Option (List Char) :=
  match matchCallAt tool body with
  | some cap => some cap
  | none => searchCallAux tool body

/-- The `rag_search` tool-name literal of the first pattern. -/
def ragChars : List Char := "rag_search".toList

/-- The `vision_pdf_search` tool-name literal of the second pattern. -/
def visionChars : List Char := "vision_pdf_search".toList

/-- A decoded JSON value, as produced by Python `json.loads`.  Objects keep
their key/value pairs in source order; lookups take the last binding, which
is what a Python dict built by the decoder holds. -/
inductive Json where
  | null : Json
  | bool (b : Bool) : Json
  | num (n : Int) : Json
  | str (s : String) : Json
  | arr (xs : List Json) : Json
  | obj (kvs : List (String × Json)) : Json

/-- Python `dict.get k` on a decoded object: last binding for `k` wins. -/
def jsonGet (k : String) (kvs : List (String × Json)) : Option Json :=
  (kvs.reverse.find? (fun p => p.1 = k)).map (fun p => p.2)

/-- Python truthiness of a decoded JSON value. -/
def jtruthy : Json → Bool
  | .null => false
  | .bool b => b
  | .num n => n != 0
  | .str s => s ≠ ""
  | .arr xs => !xs.isEmpty
  | .obj kvs => !kvs.isEmpty

/-- Value of one hex digit after `\u` in a JSON string escape, going
through the code point. -/
def hexVal (c : Char) : Option Nat :=
  let n := c.toNat
  if 48 ≤ n && n ≤ 57 then some (n - 48)
  else if 97 ≤ n && n ≤ 102 then some (n - 87)
  else if 65 ≤ n && n ≤ 70 then some (n - 55)
  else none

/-- JSON string body after the opening quote: decoded characters plus the
remainder after the closing quote.  Models the string scanner inside
`json.loads` for the escapes the decoder accepts. -/
def parseStrChars : List Char → Option (List Char × List Char)
  | [] => none
  | '"' :: r => some (([] : List Char), r)
  | '\\' :: e :: r =>
    match e with
    | '"' => (parseStrChars r).map (fun p => ('"' :: p.1, p.2))
    | '\\' => (parseStrChars r).map (fun p => ('\\' :: p.1, p.2))
    | '/' => (parseStrChars r).map (fun p => ('/' :: p.1, p.2))
    | 'b' => (parseStrChars r).map (fun p => ('\x08' :: p.1, p.2))
    | 'f' => (parseStrChars r).map (fun p => ('\x0c' :: p.1, p.2))
    | 'n' => (parseStrChars r).map (fun p => ('\n' :: p.1, p.2))
    | 'r' => (parseStrChars r).map (fun p => ('\r' :: p.1, p.2))
    | 't' => (parseStrChars r).map (fun p => ('\t' :: p.1, p.2))
    | 'u' =>
      match r with
      | h1 :: h2 :: h3 :: h4 :: r4 =>
        match hexVal h1, hexVal h2, hexVal h3, hexVal h4 with
        | some a, some b, some c, some d =>
          (parseStrChars r4).map
            (fun p => (Char.ofNat (((a * 16 + b) * 16 + c) * 16 + d) :: p.1, p.2))
        | _, _, _, _ => none
      | _ => none
    | _ => none
  | c :: r => (parseStrChars r).map (fun p => (c :: p.1, p.2))

/-- Decimal digits to a natural number, most significant first. -/
def digitsToNat (ds : List Char) : Nat :=
  ds.foldl (fun acc c => 10 * acc + (c.toNat - 48)) 0

/-- Digit run of a JSON integer literal, per the JSON number grammar: a
leading `0` is a complete integer part on its own (so `01` parses as `0`
with `1` left over, which the caller then rejects, as the decoder does). -/
def jsonDigits (l1 : List Char) : List Char :=
  match l1.takeWhile Char.isDigit with
  | [] => []
  | d :: ds => if d = '0' then [d] else d :: ds

/-- Unsigned part of a JSON integer literal (the only number form the
claims exercise; a fraction or exponent is outside the JSON subset
modelled here, so a digit run followed by one is rejected). -/
def parseNumCore (l1 : List Char) : Option (Int × List Char) :=
  match jsonDigits l1 with
  | [] => none
  | _ :: _ =>
    match l1.drop (jsonDigits l1).length with
    | '.' :: _ => none
    | 'e' :: _ => none
    | 'E' :: _ => none
    | rest => some (Int.ofNat (digitsToNat (jsonDigits l1)), rest)

/-- JSON integer literal with its optional leading minus. -/
def parseNum (l : List Char) : Option (Json × List Char) :=
  match l with
  | '-' :: r => (parseNumCore r).map (fun p => (.num (-p.1), p.2))
  | _ => (parseNumCore l).map (fun p => (.num p.1, p.2))

mutual

/-- One JSON value with surrounding leading whitespace, plus the remainder.
Fuel-indexed model of the recursive-descent decoder in `json.loads`. -/
def parseVal : Nat → List Char → Option (Json × List Char)
  | 0, _ => none
  | fuel + 1, l =>
    match l.dropWhile isWs with
    | [] => none
    | 'n' :: r => if "ull".toList.isPrefixOf r then some (.null, r.drop 3) else none
    | 't' :: r => if "rue".toList.isPrefixOf r then some (.bool true, r.drop 3) else none
    | 'f' :: r => if "alse".toList.isPrefixOf r then some (.bool false, r.drop 4) else none
    | '"' :: r => (parseStrChars r).map (fun p => (.str p.1.asString, p.2))
    | '{' :: r =>
      (match r.dropWhile isWs with
       | '}' :: r2 => some (.obj ([] : List (String × Json)), r2)
       | _ => (parseMembers fuel r).map (fun p => (.obj p.1, p.2)))
    | '[' :: r =>
      (match r.dropWhile isWs with
       | ']' :: r2 => some (.arr ([] : List Json), r2)
       | _ => (parseItems fuel r).map (fun p => (.arr p.1, p.2)))
    | c :: r => if c = '-' || c.isDigit then parseNum (c :: r) else none

/-- Comma-separated `"key": value` members of an object, then `}`. -/
def parseMembers : Nat → List Char → Option (List (String × Json) × List Char)
  | 0, _ => none
  | fuel + 1, l =>
    match l.dropWhile isWs with
    | '"' :: r =>
      match parseStrChars r with
      | none => none
      | some (k, r2) =>
        match r2.dropWhile isWs with
        | ':' :: r3 =>
          match parseVal fuel r3 with
          | none => none
          | some (v, r4) =>
            match r4.dropWhile isWs with
            | ',' :: r5 =>
              (parseMembers fuel r5).map (fun p => ((k.asString, v) :: p.1, p.2))
            | '}' :: r5 => some ([(k.asString, v)], r5)
            | _ => none
        | _ => none
    | _ => none

/-- Comma-separated values of an array, then `]`. -/
def parseItems : Nat → List Char → Option (List Json × List Char)
  | 0, _ => none
  | fuel + 1, l =>
    match parseVal fuel l with
    | none => none
    | some (v, r) =>
      match r.dropWhile isWs with
      | ',' :: r2 => (parseItems fuel r2).map (fun p => (v :: p.1, p.2))
      | ']' :: r2 => some ([v], r2)
      | _ => none

end

/-- Python `json.loads body`: one value, nothing but whitespace after it.
`none` models the decoder raising. -/
def jloadsList (l : List Char) : Option Json :=
  match parseVal (l.length + 1) l with
  | some (v, rest) => if rest.dropWhile isWs = ([] : List Char) then some v else none
  | none => none

/-- The normalized `{"name": ..., "args": ...}` a classifier branch returns.
The name is kept as a decoded JSON value: the JSON branch of the source
forwards whatever truthy value sat under `"name"`. -/
structure ToolInvocation where
  name : Json
  args : Json

/-- The ordered `(pattern, tool_name)` scan at the bottom of
`_extract_tool_invocation_from_fence`: `rag_search` first, then
`vision_pdf_search`; the first pattern that matches wins. -/
def patternInvocation (body : List Char) : Option ToolInvocation :=
  match searchCall ragChars body with
  | some cap => some ⟨.str "rag_search", .obj [("query", .str cap.asString)]⟩
  | none =>
    match searchCall visionChars body with
    | some cap => some ⟨.str "vision_pdf_search", .obj [("query", .str cap.asString)]⟩
    | none => none

/-- Normalisation `data.get("parameters", ...) or` the empty dict: the
parameters value when truthy, the empty object when absent or falsy. -/
def normParams (kvs : List (String × Json)) : Json :=
  match jsonGet "parameters" kvs with
  | some v => if jtruthy v then v else .obj ([] : List (String × Json))
  | none => .obj ([] : List (String × Json))

/-- The body of `_extract_tool_invocation_from_fence` after the fence has
matched: try `json.loads` first (a non-object makes `data.get` raise, which
the bare `except` swallows; a falsy `"name"` falls through the `if`), then
the pattern scan. -/
def parseFenceBody (body : List Char) : Option ToolInvocation :=
  match jloadsList body with
  | some (.obj kvs) =>
    match jsonGet "name" kvs with
    | some nv => if jtruthy nv then some ⟨nv, normParams kvs⟩ else patternInvocation body
    | none => patternInvocation body
  | some _ => patternInvocation body
  | none => patternInvocation body

/-- Model of `_extract_tool_invocation_from_fence` in `graph.py`. -/
def extractToolInvocationFromFence (text : String) : Option ToolInvocation :=
  if text = "" then none
  else
    match toolFenceBody text.toList with
    | none => none
    | some body => parseFenceBody body

mutual

/-- Python `str()` of a value decoded from JSON (used when tool args are
not a dict). -/
def jsonPyStr : Json → String
  | .null => "None"
  | .bool true => "True"
  | .bool false => "False"
  | .num n => toString n
  | .str s => s
  | .arr xs => "[" ++ jsonListRepr xs ++ "]"
  | .obj kvs => "\x7b" ++ jsonKvRepr kvs ++ "\x7d"

/-- Python `repr()` of a value decoded from JSON (elements inside a
container are shown with `repr`). -/
def jsonPyRepr : Json → String
  | .null => "None"
  | .bool true => "True"
  | .bool false => "False"
  | .num n => toString n
  | .str s => "\x27" ++ s ++ "\x27"
  | .arr xs => "[" ++ jsonListRepr xs ++ "]"
  | .obj kvs => "\x7b" ++ jsonKvRepr kvs ++ "\x7d"

def jsonListRepr : List Json → String
  | [] => ""
  | [x] => jsonPyRepr x
  | x :: xs => jsonPyRepr x ++ ", " ++ jsonListRepr xs

def jsonKvRepr : List (String × Json) → String
  | [] => ""
  | [(k, v)] => "\x27" ++ k ++ "\x27: " ++ jsonPyRepr v
  | (k, v) :: xs => "\x27" ++ k ++ "\x27: " ++ jsonPyRepr v ++ ", " ++ jsonKvRepr xs

end

/-- A structured tool-call record on a model response, with the two field
layouts the source probes: top-level `name`/`args` and OpenAI-style
`function.name`/`function.arguments`.  `none` models an absent key. -/
structure RawToolCall where
  name : Option String
  args : Option Json
  fnName : Option String
  fnArgs : Option Json

/-- Name resolution `call.get("name") or (call.get("function") or \x7b\x7d).get("name")`:
when the first operand is falsy the second is returned as-is, so a
present-but-empty `function.name` comes out as `some ""` (Python `""`),
while an absent one is `none` (Python `None`). -/
def resolveCallName (c : RawToolCall) : Option String :=
  match c.name with
  | some s => if s ≠ "" then some s else c.fnName
  | none => c.fnName

/-- Args resolution `call.get("args") or ....get("arguments") or` empty, followed by the
string-decoding step: a string is fed to `json.loads`, and on a decode
failure degrades to `{"query": <raw string>}`. -/
def resolveCallArgs (c : RawToolCall) : Json :=
  let first : Json :=
    match c.args with
    | some v => if jtruthy v then v else
        (match c.fnArgs with
         | some w => if jtruthy w then w else .obj ([] : List (String × Json))
         | none => .obj ([] : List (String × Json)))
    | none =>
      match c.fnArgs with
      | some w => if jtruthy w then w else .obj ([] : List (String × Json))
      | none => .obj ([] : List (String × Json))
  match first with
  | .str s =>
    (match jloadsList s.toList with
     | some v => v
     | none => .obj [("query", .str s)])
  | v => v

/-- One entry of the session message log.  The `toolCalls` field is what
the LangGraph `tools_condition` inspects on the returned message. -/
structure Msg where
  role : String
  content : String
  toolCalls : List RawToolCall

/-- A raw model response from the tools-bound invocation: LangChain
`AIMessage`-ness, its text content, `.tool_calls`, and
`.additional_kwargs["tool_calls"]`. -/
structure Resp where
  isAI : Bool
  content : String
  toolCalls : List RawToolCall
  akToolCalls : List RawToolCall

/-- Effective calls: `getattr(resp, "tool_calls", None) or additional_kwargs.get("tool_calls")`. -/
def effCalls (r : Resp) : List RawToolCall :=
  match r.toolCalls with
  | [] => r.akToolCalls
  | c :: cs => c :: cs

/-- The external collaborators of one turn: the tools-bound model, the
plain model (returns the text of one assistant message), and the two
tools.  The vision tool may raise (`Except.error`), which the source
catches at exactly one call site. -/
structure Oracle where
  llmTools : List Msg → Resp
  llm : List Msg → String
  rag : Json → String
  vision : Json → Except String String

/-- Trace of the side effects a turn performs, in order. -/
inductive Event where
  | llmToolsCall : Event
  | llmCall : Event
  | ragCall (args : Json) : Event
  | visionCall (args : Json) : Event

/-- Model of `_last_user_text` in `graph.py`: content of the most recent message
whose role is `human` or `user`, else the empty string. -/
def lastUserText : List Msg → String
  | [] => ""
  | ms =>
    match ms.reverse.find? (fun m => m.role = "human" || m.role = "user") with
    | some m => m.content
    | none => ""

/-- The sentinel substring the escalation logic greps for. -/
def noCtxSentinel : String := "No relevant context found"

/-- Build `{"query": q}` as tool args. -/
def queryArgs (q : String) : Json := .obj [("query", .str q)]

/-- Model of `_vision_if_empty` in `graph.py`: on the sentinel, escalate to the
vision tool (its exception is caught here and folded into the context);
otherwise tag the retrieval output.  Returns the context string and the
tool events performed. -/
def visionIfEmpty (o : Oracle) (query : String) (ragOut : String) :
    String × List Event :=
  if containsSub noCtxSentinel ragOut then
    match o.vision (queryArgs query) with
    | .error e =>
      ("CONTEXT from rag_search (vision failed: " ++ e ++ "):\n" ++ ragOut,
       [.visionCall (queryArgs query)])
    | .ok visOut =>
      ("CONTEXT from vision_pdf_search:\n" ++ visOut,
       [.visionCall (queryArgs query)])
  else ("CONTEXT from rag_search:\n" ++ ragOut, ([] : List Event))

/-- Normalisation `args if isinstance(args, dict) else` the query wrapper. -/
def normToolArgs (args : Json) : Json :=
  match args with
  | .obj kvs => .obj kvs
  | v => .obj [("query", .str (jsonPyStr v))]

/-- Python `f"{tool_name}"` on the routed name (`None` when falsy). -/
def pyShowName : Option Json → String
  | none => "None"
  | some v => jsonPyStr v

/-- Model of `_run_tool_and_respond` in `graph.py`.  The direct
`vision_pdf_search.invoke` at this site is *not* under a `try`, so a vision
failure propagates (`Except.error`). -/
def runToolAndRespond (o : Oracle) (stateMsgs : List Msg)
    (name : Option Json) (args : Json) :
    Except String (List Msg × List Event) :=
  match name with
  | some (.str s) =>
    if s = "rag_search" then
      let rargs := normToolArgs args
      let out := o.rag rargs
      let (ctx, ev) := visionIfEmpty o (lastUserText stateMsgs) out
      let hist := stateMsgs ++ [⟨"system", ctx, []⟩]
      .ok ([⟨"assistant", o.llm hist, []⟩],
           .ragCall rargs :: ev ++ [.llmCall])
    else if s = "vision_pdf_search" then
      let vargs := normToolArgs args
      match o.vision vargs with
      | .error e => .error e
      | .ok out =>
        let ctx := "CONTEXT from vision_pdf_search:\n" ++ out
        let hist := stateMsgs ++ [⟨"system", ctx, []⟩]
        .ok ([⟨"assistant", o.llm hist, []⟩], [.visionCall vargs, .llmCall])
    else
      .ok ([⟨"assistant", "(Unknown tool \x27" ++ s ++ "\x27)", []⟩],
           ([] : List Event))
  | _ =>
    .ok ([⟨"assistant", "(Unknown tool \x27" ++ pyShowName name ++ "\x27)", []⟩],
         ([] : List Event))

/-- The soft fallback shared by the fence-present and blank branches:
direct retrieval on the last user text, escalation, one grounded call. -/
def softFallback (o : Oracle) (msgs : List Msg) (userQ : String) :
    List Msg × List Event :=
  let ragOut := o.rag (queryArgs userQ)
  let (ctx, ev) := visionIfEmpty o userQ ragOut
  let hist := msgs ++ [⟨"system", ctx, []⟩]
  ([⟨"assistant", o.llm hist, []⟩], .ragCall (queryArgs userQ) :: ev ++ [.llmCall])

/-- The canned reply of the final fallback line of `chatbot`. -/
def cannedReply : String :=
  "I couldn\x27t generate a response. Try rephrasing your question."

/-- The raw response replayed as the appended message (branches that
`return {"messages": [resp]}`). -/
def respToMsg (r : Resp) : Msg := ⟨"assistant", r.content, r.toolCalls⟩

/-- Model of `chatbot` in `graph.py`: one turn.  Returns the messages the node
appends and the event trace; `Except.error` models an uncaught exception
escaping the node (the direct vision invocation is the only raising site
in this model). -/
def chatbot (o : Oracle) (msgs : List Msg) :
    Except String (List Msg × List Event) :=
  let resp := o.llmTools msgs
  let branch : Except String (List Msg × List Event) :=
    if resp.isAI && resp.content ≠ "" then
      match effCalls resp with
      | call :: _ =>
        runToolAndRespond o msgs ((resolveCallName call).map Json.str)
          (resolveCallArgs call)
      | [] =>
        match extractToolInvocationFromFence resp.content with
        | some tc => runToolAndRespond o msgs (some tc.name) tc.args
        | none =>
          if hasToolFence resp.content then
            let userQ := lastUserText msgs
            if userQ ≠ "" then .ok (softFallback o msgs userQ)
            else .ok ([respToMsg resp], ([] : List Event))
          else .ok ([respToMsg resp], ([] : List Event))
    else
      let userQ := lastUserText msgs
      if userQ ≠ "" then .ok (softFallback o msgs userQ)
      else .ok ([⟨"assistant", cannedReply, []⟩], ([] : List Event))
  branch.map (fun r => (r.1, Event.llmToolsCall :: r.2))

/-- Where the LangGraph `tools_condition` sends the last node message. -/
inductive Route where
  | toolsNode : Route
  | terminal : Route

/-- Model of `tools_condition`: route to the ToolNode iff the appended message
carries structured tool calls, else end the turn. -/
def toolsCondition (m : Msg) : Route :=
  match m.toolCalls with
  | [] => .terminal
  | _ :: _ => .toolsNode

/-! ### `rag_tool.py` -/

/-- One retrieved document: page content plus the metadata fields
`rag_tool` reads. -/
structure Doc where
  source : Option String
  path : Option String
  page : Option Int
  content : String

/-- A retriever is its `get_relevant_documents` method. -/
def Retriever : Type := String → List Doc

/-- How `_cached_retriever` can come out: the store directory is missing,
`FAISS.load_local` raised, or the index loaded. -/
inductive StoreState where
  | missingDir : StoreState
  | loadFailure (err : String) : StoreState
  | loaded (r : Retriever) : StoreState

/-- Model of `_cached_retriever` in `rag_tool.py`: both failure modes are absorbed
into an `_EmptyRetriever` (which returns no documents) instead of raising. -/
def cachedRetriever : StoreState → Retriever
  | .missingDir => fun _ => []
  | .loadFailure _ => fun _ => []
  | .loaded r => r

/-- Model of `os.path.basename` for the forward-slash paths this code builds:
everything after the last `/`. -/
def baseName (p : String) : String :=
  ((p.toList.reverse.takeWhile (fun c => !(c = '/'))).reverse).asString

/-- Python `str.replace("\n", " ")`. -/
def newlinesToSpaces (s : String) : String :=
  ((s.toList).map (fun c => if c = '\n' then ' ' else c)).asString

/-- One snippet line of the rag_tool output:
`f"- [{basename(src)}{page_tag}] {text[:500]}..."`. -/
def snippetLine (i : Nat) (d : Doc) : String :=
  let fromPath := match d.path with
                  | some p => if p = "" then "doc-" ++ toString i else p
                  | none => "doc-" ++ toString i
  let src := match d.source with
             | some s => if s = "" then fromPath else s
             | none => fromPath
  let pageTag := match d.page with
                 | some p => " p." ++ toString p
                 | none => ""
  let text := newlinesToSpaces (trimWs d.content.toList).asString
  "- [" ++ baseName src ++ pageTag ++ "] " ++ (text.toList.take 500).asString ++ "..."

/-- Number the documents from 1 as `enumerate(docs, 1)` does. -/
def snippetLines (start : Nat) : List Doc → List String
  | [] => []
  | d :: ds => snippetLine start d :: snippetLines (start + 1) ds

/-- The sentinel text `rag_tool` returns when retrieval found nothing. -/
def ragSentinel : String := "CONTEXT:\n(No relevant context found.)"

/-- Model of `rag_tool` in `rag_tool.py` given the retriever state: never raises for
the modelled failure modes; an empty result set yields the sentinel. -/
def ragToolRun (st : StoreState) (query : String) : String :=
  let docs := cachedRetriever st query
  match docs with
  | [] => ragSentinel
  | _ :: _ => "CONTEXT:\n" ++ String.intercalate "\n" (snippetLines 1 docs)

/-! ### `pdf_image_tool.py` -/

/-- The collaborators of `vision_pdf_search`: the files `os.walk` yields
under `./docs` in walk order, `fitz.open` (`none` = raised), per-page
render-and-save success, and the multimodal model call (question text and
image paths to the answer text). -/
structure VisionEnv where
  walkFiles : List String
  pageCount : String → Option Nat
  renderOk : String → Nat → Bool
  model : String → List String → String

/-- Filter `f.lower().endswith(".pdf")`. -/
def isPdfName (f : String) : Bool :=
  ".pdf".toList.isSuffixOf (f.toList.map Char.toLower)

/-- Model of `os.path.splitext(...)[0]` of a basename: drop the last dot suffix
(a lone leading dot, as in a dotfile, is not an extension). -/
def stemOf (base : String) : String :=
  match (base.toList.reverse).dropWhile (fun c => !(c = '.')) with
  | '.' :: rest => if rest = ([] : List Char) then base else (rest.reverse).asString
  | _ => base

/-- Where page `i` (0-based) of `pdf_path` is saved:
`./page_images/<pdf_stem>/page-<i+1>.png` (the absolute-path normalisation
`_abs_norm` is modelled as the identity on this joined path). -/
def pageImagePath (pdfPath : String) (i : Nat) : String :=
  "./page_images/" ++ stemOf (baseName pdfPath) ++ "/page-" ++ toString (i + 1) ++ ".png"

/-- Model of `_pdf_to_images` in `pdf_image_tool.py`: open the PDF (a failure gives
no images), then render pages `0 .. min(len(doc), max_pages) - 1`; a page
whose render-or-save fails is skipped with a warning. -/
def pdfToImages (env : VisionEnv) (pdfPath : String) (maxPages : Nat) : List String :=
  match env.pageCount pdfPath with
  | none => []
  | some n =>
    (List.range (min n maxPages)).filterMap
      (fun i => if env.renderOk pdfPath i then some (pageImagePath pdfPath i) else none)

/-- Constant `MAX_PAGES_PER_PDF`. -/
def maxPagesPerPdf : Nat := 3

/-- The fixed question prefix built in `vision_pdf_search`. -/
def visionQuestion (query : String) : String :=
  "You are given page images from a PDF. Answer the question by reading the images. " ++
  "If unsure, say so. Question: " ++ query

/-- Labels `", ".join(str(i + 1) for i in range(len(image_paths)))`: sequential
labels, not the page numbers that actually rendered. -/
def pageLabels (k : Nat) : String :=
  String.intercalate ", " ((List.range k).map (fun i => toString (i + 1)))

/-- Model of `vision_pdf_search` in `pdf_image_tool.py`. -/
def visionPdfSearchRun (env : VisionEnv) (query : String) : String :=
  let pdfs := env.walkFiles.filter isPdfName
  match pdfs with
  | [] => "CONTEXT (vision): No PDFs found under ./docs."
  | pdfPath :: _ =>
    let imagePaths := pdfToImages env pdfPath maxPagesPerPdf
    match imagePaths with
    | [] => "CONTEXT (vision): Could not render any pages from PDFs."
    | _ :: _ =>
      let answer := env.model (visionQuestion query) imagePaths
      "CONTEXT (vision from " ++ baseName pdfPath ++ " pages " ++
        pageLabels imagePaths.length ++ "):\n" ++ answer

/-! ### Concrete fixtures used to instantiate the theorems -/

/-- A plain model stub: answers with the content of the last message. -/
def echoLlm : List Msg → String :=
  fun ms => match ms.reverse with
            | m :: _ => "F " ++ m.content
            | [] => "F"

/-- A retrieval stub that finds something: tags and echoes the query. -/
def echoRag : Json → String :=
  fun a => match a with
           | .obj [("query", .str q)] => "R " ++ q
           | _ => "R?"

/-- A retrieval stub whose index is empty: always the sentinel. -/
def emptyRag : Json → String := fun _ => ragSentinel

/-- A vision stub that answers: echoes the query. -/
def okVision : Json → Except String String :=
  fun a => match a with
           | .obj [("query", .str q)] => .ok ("V " ++ q)
           | _ => .ok "V?"

/-- A vision stub that raises. -/
def errVision : Json → Except String String := fun _ => .error "boom"

/-- A one-user-message history. -/
def userHi : List Msg := [⟨"user", "hi", []⟩]

/-- A structured call requesting `rag_search` on `"zz"`. -/
def zzCall : RawToolCall := ⟨some "rag_search", some (queryArgs "zz"), none, none⟩

/-- A second structured call, which the source must ignore. -/
def secondCall : RawToolCall := ⟨some "vision_pdf_search", some (queryArgs "second"), none, none⟩

/-- Response with a structured call but empty content. -/
def emptyContentResp : Resp := ⟨true, "", [zzCall], []⟩

/-- Response with two structured calls *and* a fenced vision call. -/
def twoCallsResp : Resp :=
  ⟨true, "```tool_code vision_pdf_search(\"x\") ```", [zzCall, secondCall], []⟩

/-- Response with only a fenced vision call. -/
def visionFenceResp : Resp := ⟨true, "```tool_code vision_pdf_search(\"x\") ```", [], []⟩

/-- Response whose fenced body parses as JSON naming an unknown tool. -/
def unknownJsonResp : Resp :=
  ⟨true, "```tool_code \x7b\"name\":\"foo\",\"parameters\":\x7b\"x\":1\x7d\x7d ```", [], []⟩

/-- Fenced body: JSON with a known name but `null` parameters. -/
def nullParamsBody : List Char :=
  "\x7b\"name\": \"rag_search\", \"parameters\": null\x7d".toList

/-- Fenced body: JSON whose name is falsy while the raw body text still
contains a call-like pattern preceded by a space. -/
def falsyNameBody : List Char :=
  "\x7b\"name\": \"\", \"parameters\": \" rag_search(\x27hi\x27)\"\x7d".toList

/-- Response with a fenced JSON body whose name is falsy and whose text
matches no call pattern. -/
def emptyNameResp : Resp :=
  ⟨true, "```tool_code \x7b\"name\": \"\", \"parameters\": \x7b\x7d\x7d ```", [], []⟩

/-- Response with a fence that parses as nothing at all. -/
def gibberishResp : Resp := ⟨true, "```tool_code hello there ```", [], []⟩

/-- Response that is blank. -/
def blankResp : Resp := ⟨true, "", [], []⟩

/-- Response that is plain prose. -/
def proseResp : Resp := ⟨true, "just words", [], []⟩

/-- Response with a structured `rag_search` call and nonempty prose. -/
def ragCallResp : Resp := ⟨true, "calling rag", [zzCall], []⟩

/-- Oracle delivering `r` from the tools-bound model, with a non-empty
index and a working vision tool. -/
def mkOracle (r : Resp) : Oracle := ⟨fun _ => r, echoLlm, echoRag, okVision⟩

/-- Oracle delivering `r`, with an empty index and a working vision tool. -/
def mkOracleEmptyIdx (r : Resp) : Oracle := ⟨fun _ => r, echoLlm, emptyRag, okVision⟩

/-- Oracle delivering `r`, with an empty index and a raising vision tool. -/
def mkOracleVisionErr (r : Resp) : Oracle := ⟨fun _ => r, echoLlm, emptyRag, errVision⟩

/-- Vision fixture: one PDF with five pages whose first page fails to
render, so pages 2 and 3 are the ones rendered. -/
def skipFirstPageEnv : VisionEnv :=
  { walkFiles := ["./docs/a.txt", "./docs/doc.pdf", "./docs/other.pdf"]
    pageCount := fun _ => some 5
    renderOk := fun _ i => decide (i ≠ 0)
    model := fun _ imgs => "ANS#" ++ toString imgs.length }

/-- Vision fixture: one PDF with five pages, all rendering. -/
def allPagesEnv : VisionEnv :=
  { walkFiles := ["./docs/a.txt", "./docs/doc.pdf", "./docs/other.pdf"]
    pageCount := fun _ => some 5
    renderOk := fun _ _ => true
    model := fun _ imgs => "ANS#" ++ toString imgs.length }

/-- An event that is a model invocation (either call site). -/
def isModelCall : Event → Bool
  | .llmToolsCall => true
  | .llmCall => true
  | _ => false

/-- An event that is the tools-bound model invocation. -/
def isToolsBoundCall : Event → Bool
  | .llmToolsCall => true
  | _ => false

/-- An event that is the plain (tool-free) model invocation. -/
def isPlainCall : Event → Bool
  | .llmCall => true
  | _ => false

end Gemma3



namespace Gemma3

/-! ## Theorems -/

/--
C9: whenever the index store directory is missing or the index fails to
load, `rag_tool` returns (rather than raises) the fixed sentinel text, the
"no relevant context" marker is detectable in it by substring match, and
the downstream escalation check fires on it.
-/
theorem rag_sentinel_on_unavailable (st : StoreState) (query : String)
    (h : st = .missingDir ∨ ∃ e, st = .loadFailure e) :
    ragToolRun st query = ragSentinel ∧
    containsSub noCtxSentinel (ragToolRun st query) = true ∧
    ∀ (o : Oracle) (q : String),
      (visionIfEmpty o q (ragToolRun st query)).2 = [.visionCall (queryArgs q)] := by
  have hrun : ragToolRun st query = ragSentinel := by
    rcases h with h | ⟨e, h⟩ <;> subst h <;> rfl
  have hsub : containsSub noCtxSentinel ragSentinel = true := by decide
  refine ⟨hrun, by rw [hrun]; exact hsub, ?_⟩
  intro o q
  rw [hrun]
  unfold visionIfEmpty
  rw [hsub]
  simp only [if_true]
  cases o.vision (queryArgs q) <;> rfl

/-- C9 witness: a missing store directory at a concrete query. -/
theorem rag_sentinel_on_unavailable_witness :
    ragToolRun .missingDir "refund" = ragSentinel ∧
    containsSub noCtxSentinel (ragToolRun .missingDir "refund") = true := by
  have h := rag_sentinel_on_unavailable .missingDir "refund" (Or.inl rfl)
  exact ⟨h.1, h.2.1⟩

end Gemma3

namespace Gemma3

/--
C2: whenever the result of the document-retrieval tool contains the "no relevant
context" sentinel, the execution layer invokes the vision tool with the
most recent user-authored message text as its query (not with the original
tool-call arguments), and the grounding context is tagged as coming from
`vision_pdf_search`, not from `rag_search`.
-/
theorem rag_escalates_to_vision (o : Oracle) (stateMsgs : List Msg)
    (args : Json) (visOut : String)
    (hsent : containsSub noCtxSentinel (o.rag (normToolArgs args)) = true)
    (hvis : o.vision (queryArgs (lastUserText stateMsgs)) = .ok visOut) :
    runToolAndRespond o stateMsgs (some (.str "rag_search")) args =
      .ok ([⟨"assistant",
             o.llm (stateMsgs ++
               [⟨"system", "CONTEXT from vision_pdf_search:\n" ++ visOut, []⟩]),
             []⟩],
           [.ragCall (normToolArgs args),
            .visionCall (queryArgs (lastUserText stateMsgs)),
            .llmCall]) := by
  unfold runToolAndRespond visionIfEmpty
  simp [hsent, hvis]

/-- C2 witness: a concrete empty-index oracle. -/
theorem rag_escalates_to_vision_witness :
    containsSub noCtxSentinel
      ((mkOracleEmptyIdx ragCallResp).rag (normToolArgs (queryArgs "zz"))) = true ∧
    runToolAndRespond (mkOracleEmptyIdx ragCallResp) userHi
        (some (.str "rag_search")) (queryArgs "zz") =
      .ok ([⟨"assistant", "F CONTEXT from vision_pdf_search:\nV hi", []⟩],
           [.ragCall (queryArgs "zz"), .visionCall (queryArgs "hi"), .llmCall]) := by
  refine ⟨by decide, ?_⟩
  have h := rag_escalates_to_vision (mkOracleEmptyIdx ragCallResp) userHi
    (queryArgs "zz") "V hi" (by decide) rfl
  exact h

end Gemma3

namespace Gemma3

/--
C3: if the vision tool raises while being invoked from the text-to-vision
escalation site, the exception is caught there: a grounding context is
still produced, annotated that vision failed and wrapping the original
retrieval output (first conjunct, for every escalation); and a turn whose
response routed to `rag_search` still performs the grounded follow-up
model call and completes with exactly one assistant message appended
(second conjunct).
-/
theorem vision_failure_degrades :
    (∀ (o : Oracle) (q ragOut e : String),
      containsSub noCtxSentinel ragOut = true →
      o.vision (queryArgs q) = .error e →
      visionIfEmpty o q ragOut =
        ("CONTEXT from rag_search (vision failed: " ++ e ++ "):\n" ++ ragOut,
         [.visionCall (queryArgs q)])) ∧
    (∀ (o : Oracle) (msgs : List Msg) (call : RawToolCall) (e : String),
      (o.llmTools msgs).isAI = true →
      (o.llmTools msgs).content ≠ "" →
      effCalls (o.llmTools msgs) = [call] →
      resolveCallName call = some "rag_search" →
      containsSub noCtxSentinel (o.rag (normToolArgs (resolveCallArgs call))) = true →
      o.vision (queryArgs (lastUserText msgs)) = .error e →
      chatbot o msgs =
        .ok ([⟨"assistant",
               o.llm (msgs ++
                 [⟨"system",
                   "CONTEXT from rag_search (vision failed: " ++ e ++ "):\n" ++
                     o.rag (normToolArgs (resolveCallArgs call)), []⟩]),
               []⟩],
             [.llmToolsCall,
              .ragCall (normToolArgs (resolveCallArgs call)),
              .visionCall (queryArgs (lastUserText msgs)),
              .llmCall])) := by
  constructor
  · intro o q ragOut e hsent herr
    unfold visionIfEmpty
    rw [hsent, herr]
    rfl
  · intro o msgs call e hAI hc hcalls hname hsent herr
    simp only [chatbot, hAI, hcalls, hname, Bool.true_and, decide_eq_true_eq,
      ne_eq, hc, not_false_eq_true, if_true, Option.map_some]
    simp only [runToolAndRespond, visionIfEmpty, hsent, herr]
    simp [Except.map]

/-- C3 witness: empty index plus a raising vision tool, concrete turn. -/
theorem vision_failure_degrades_witness :
    chatbot (mkOracleVisionErr ragCallResp) userHi =
      .ok ([⟨"assistant",
             "F CONTEXT from rag_search (vision failed: boom):\n" ++ ragSentinel, []⟩],
           [.llmToolsCall, .ragCall (queryArgs "zz"),
            .visionCall (queryArgs "hi"), .llmCall]) := by
  have h := vision_failure_degrades.2 (mkOracleVisionErr ragCallResp) userHi zzCall
    "boom" rfl (by decide) rfl rfl (by decide) rfl
  exact h

end Gemma3

namespace Gemma3

/--
C1 (amended): for every AI model response with *non-empty* textual content
that carries a structured tool call (effective `tool_calls` non-empty), the
turn routes through the structured call — any fenced content in the same
response is never consulted — and only the `(name, args)` of the first entry is
executed; the remaining entries do not influence the result at all.
-/
theorem chatbot_structured_first (o : Oracle) (msgs : List Msg)
    (call : RawToolCall) (rest : List RawToolCall)
    (hAI : (o.llmTools msgs).isAI = true)
    (hc : (o.llmTools msgs).content ≠ "")
    (hcalls : effCalls (o.llmTools msgs) = call :: rest) :
    chatbot o msgs =
      (runToolAndRespond o msgs ((resolveCallName call).map Json.str)
        (resolveCallArgs call)).map
        (fun r => (r.1, Event.llmToolsCall :: r.2)) := by
  simp only [chatbot, hAI, hcalls, Bool.true_and, decide_eq_true_eq,
    ne_eq, hc, not_false_eq_true, if_true]

/--
C1 witness: a response carrying two structured calls *and* a fenced vision
call routes on the first structured call only (`rag_search` on `"zz"`); the
fence and the second call leave no trace.
-/
theorem chatbot_structured_first_witness :
    (mkOracle twoCallsResp).llmTools userHi = twoCallsResp ∧
    twoCallsResp.isAI = true ∧
    twoCallsResp.content ≠ "" ∧
    effCalls twoCallsResp = [zzCall, secondCall] ∧
    chatbot (mkOracle twoCallsResp) userHi =
      .ok ([⟨"assistant", "F CONTEXT from rag_search:\nR zz", []⟩],
           [.llmToolsCall, .ragCall (queryArgs "zz"), .llmCall]) := by
  refine ⟨rfl, rfl, by decide, rfl, ?_⟩
  rw [chatbot_structured_first (mkOracle twoCallsResp) userHi zzCall [secondCall]
    rfl (by decide) rfl]
  rfl

/--
C1 counterexample: a response that carries a structured tool call but has
empty content.  The claim says the classifier selects the structured route;
the code instead takes the blank fallback, retrieving on the last *user*
text ("hi") rather than executing the args of the call ("zz"), so the final
answers differ.
-/
theorem chatbot_structured_empty_content_cx :
    effCalls emptyContentResp = [zzCall] ∧
    chatbot (mkOracle emptyContentResp) userHi =
      .ok ([⟨"assistant", "F CONTEXT from rag_search:\nR hi", []⟩],
           [.llmToolsCall, .ragCall (queryArgs "hi"), .llmCall]) ∧
    (runToolAndRespond (mkOracle emptyContentResp) userHi
        ((resolveCallName zzCall).map Json.str) (resolveCallArgs zzCall)).map
        (fun r => (r.1, Event.llmToolsCall :: r.2)) =
      .ok ([⟨"assistant", "F CONTEXT from rag_search:\nR zz", []⟩],
           [.llmToolsCall, .ragCall (queryArgs "zz"), .llmCall]) ∧
    "F CONTEXT from rag_search:\nR hi" ≠ "F CONTEXT from rag_search:\nR zz" := by
  exact ⟨rfl, rfl, rfl, by decide⟩

end Gemma3

namespace Gemma3

/--
C6 (amended): on the fence-present-but-unparseable path with no extractable
user text, the final answer of the turn is the original model response,
unchanged (first conjunct).  On the blank path with no extractable user
text, the code does *not* return the original response: it substitutes the
fixed canned reply (second conjunct).
-/
theorem no_user_text_fallback :
    (∀ (o : Oracle) (msgs : List Msg),
      (o.llmTools msgs).isAI = true →
      (o.llmTools msgs).content ≠ "" →
      effCalls (o.llmTools msgs) = [] →
      extractToolInvocationFromFence (o.llmTools msgs).content = none →
      hasToolFence (o.llmTools msgs).content = true →
      lastUserText msgs = "" →
      chatbot o msgs = .ok ([respToMsg (o.llmTools msgs)], [.llmToolsCall])) ∧
    (∀ (o : Oracle) (msgs : List Msg),
      ((o.llmTools msgs).isAI = false ∨ (o.llmTools msgs).content = "") →
      lastUserText msgs = "" →
      chatbot o msgs = .ok ([⟨"assistant", cannedReply, []⟩], [.llmToolsCall])) := by
  constructor
  · intro o msgs hAI hc hcalls hext hf huser
    simp only [chatbot, hAI, hcalls, hext, hf, Bool.true_and, decide_eq_true_eq,
      ne_eq, hc, not_false_eq_true, if_true, huser]
    simp [Except.map]
  · intro o msgs hblank huser
    have hcond : ((o.llmTools msgs).isAI && decide ((o.llmTools msgs).content ≠ "")) = false := by
      rcases hblank with h | h <;> simp [h]
    simp only [chatbot, hcond, Bool.false_eq_true, if_false, huser]
    simp [Except.map]

/-- C6 witness: both no-user-text behaviours at concrete inputs. -/
theorem no_user_text_fallback_witness :
    chatbot (mkOracle gibberishResp) [] =
      .ok ([⟨"assistant", "```tool_code hello there ```", []⟩], [.llmToolsCall]) ∧
    chatbot (mkOracle blankResp) [] =
      .ok ([⟨"assistant", cannedReply, []⟩], [.llmToolsCall]) := by
  constructor
  · have h := no_user_text_fallback.1 (mkOracle gibberishResp) []
      rfl (by decide) rfl rfl rfl rfl
    exact h
  · have h := no_user_text_fallback.2 (mkOracle blankResp) [] (Or.inr rfl) rfl
    exact h

/--
C6 counterexample: a blank response with no extractable user text.  The
claim says the final answer is the original model response unchanged (here
the empty string); the code instead substitutes the canned reply.
-/
theorem blank_no_user_cx :
    (mkOracle blankResp).llmTools [] = blankResp ∧
    blankResp.content = "" ∧
    chatbot (mkOracle blankResp) [] =
      .ok ([⟨"assistant", cannedReply, []⟩], [.llmToolsCall]) ∧
    cannedReply ≠ "" := by
  exact ⟨rfl, rfl, rfl, by decide⟩

end Gemma3

namespace Gemma3

/-- All the ways the JSON attempt can fail to yield an invocation make
`_extract_tool_invocation_from_fence` fall through to its pattern scan:
the decoder raises, the decoded object has no truthy `"name"` value, or
the decoded value is not an object at all (`data.get` then raises into the
bare `except`). -/
theorem parseFenceBody_fallthrough (body : List Char)
    (h : jloadsList body = none ∨
      (∃ kvs, jloadsList body = some (.obj kvs) ∧
        ∀ nv, jsonGet "name" kvs = some nv → jtruthy nv = false) ∨
      (∃ v, jloadsList body = some v ∧ ∀ kvs, v ≠ Json.obj kvs)) :
    parseFenceBody body = patternInvocation body := by
  rcases h with h | ⟨kvs, hj, hname⟩ | ⟨v, hj, hobj⟩
  · unfold parseFenceBody
    rw [h]
  · cases hn : jsonGet "name" kvs with
    | none => simp only [parseFenceBody, hj, hn]
    | some nv =>
      simp only [parseFenceBody, hj, hn, hname nv hn, Bool.false_eq_true, if_false]
  · unfold parseFenceBody
    rw [hj]
    cases v with
    | obj kvs => exact absurd rfl (hobj kvs)
    | null => rfl
    | bool b => rfl
    | num n => rfl
    | str ss => rfl
    | arr xs => rfl

/--
C5 (amended): for every fenced block whose body fails the JSON attempt —
or JSON-parses without a truthy name: a falsy or missing `"name"`, or a
non-object value — and matches neither call-like pattern (in particular
any *non-JSON* body naming an unknown tool), the classifier yields no
invocation (`FencedUnparseable`, modelled as `none`; the classifier is a
total function, so it never raises), and the turn takes the soft fallback:
direct retrieval on the last user text when one exists, else the original
response unchanged.  (Fenced *JSON* bodies naming an unknown tool are the
exception the counterexample exhibits: they yield an invocation that is
routed to the unknown-tool reply instead.)
-/
theorem fence_unparseable_soft_fallback (o : Oracle) (msgs : List Msg)
    (body : List Char)
    (hAI : (o.llmTools msgs).isAI = true)
    (hc : (o.llmTools msgs).content ≠ "")
    (hcalls : effCalls (o.llmTools msgs) = [])
    (hfence : toolFenceBody (o.llmTools msgs).content.toList = some body)
    (hjson : jloadsList body = none ∨
      (∃ kvs, jloadsList body = some (.obj kvs) ∧
        ∀ nv, jsonGet "name" kvs = some nv → jtruthy nv = false) ∨
      (∃ v, jloadsList body = some v ∧ ∀ kvs, v ≠ Json.obj kvs))
    (hrag : searchCall ragChars body = none)
    (hvis : searchCall visionChars body = none) :
    extractToolInvocationFromFence (o.llmTools msgs).content = none ∧
    chatbot o msgs =
      .ok (if lastUserText msgs = "" then
             ([respToMsg (o.llmTools msgs)], [Event.llmToolsCall])
           else
             ((softFallback o msgs (lastUserText msgs)).1,
              Event.llmToolsCall :: (softFallback o msgs (lastUserText msgs)).2)) := by
  have hext : extractToolInvocationFromFence (o.llmTools msgs).content = none := by
    unfold extractToolInvocationFromFence
    rw [if_neg hc, hfence]
    show parseFenceBody body = none
    rw [parseFenceBody_fallthrough body hjson]
    unfold patternInvocation
    rw [hrag, hvis]
  refine ⟨hext, ?_⟩
  have hft : hasToolFence (o.llmTools msgs).content = true := by
    unfold hasToolFence
    rw [hfence]
    rfl
  by_cases huser : lastUserText msgs = ""
  · simp only [chatbot, hAI, hcalls, hext, hft, Bool.true_and, decide_eq_true_eq,
      ne_eq, hc, not_false_eq_true, if_true, huser]
    simp [Except.map]
  · simp only [chatbot, hAI, hcalls, hext, hft, Bool.true_and, decide_eq_true_eq,
      ne_eq, hc, not_false_eq_true, if_true, huser]
    simp [Except.map, huser]

/-- C5 witness: a fenced body that is neither JSON nor a known pattern
(`foo_search("x")`, an unknown tool in call syntax) classifies to nothing
and the turn falls back to direct retrieval on the user text; and the same
for a fenced JSON body with a falsy name and no pattern. -/
theorem fence_unparseable_soft_fallback_witness :
    extractToolInvocationFromFence "```tool_code foo_search(\"x\") ```" = none ∧
    chatbot (mkOracle ⟨true, "```tool_code foo_search(\"x\") ```", [], []⟩) userHi =
      .ok ([⟨"assistant", "F CONTEXT from rag_search:\nR hi", []⟩],
           [.llmToolsCall, .ragCall (queryArgs "hi"), .llmCall]) ∧
    extractToolInvocationFromFence emptyNameResp.content = none ∧
    chatbot (mkOracle emptyNameResp) userHi =
      .ok ([⟨"assistant", "F CONTEXT from rag_search:\nR hi", []⟩],
           [.llmToolsCall, .ragCall (queryArgs "hi"), .llmCall]) := by
  have h := fence_unparseable_soft_fallback
    (mkOracle ⟨true, "```tool_code foo_search(\"x\") ```", [], []⟩) userHi
    "foo_search(\"x\")".toList rfl (by decide) rfl rfl (Or.inl rfl) rfl rfl
  have hname2 : ∀ nv, jsonGet "name"
      [("name", Json.str ""), ("parameters", Json.obj ([] : List (String × Json)))] =
        some nv → jtruthy nv = false := by
    intro nv hv
    injection (show some (Json.str "") = some nv from hv) with h2
    rw [← h2]
    decide
  have h2 := fence_unparseable_soft_fallback (mkOracle emptyNameResp) userHi
    "\x7b\"name\": \"\", \"parameters\": \x7b\x7d\x7d".toList
    rfl (by decide) rfl rfl
    (Or.inr (Or.inl ⟨[("name", Json.str ""),
      ("parameters", Json.obj ([] : List (String × Json)))], rfl, hname2⟩))
    rfl rfl
  refine ⟨h.1, ?_, h2.1, ?_⟩
  · rw [h.2]
    rfl
  · rw [h2.2]
    rfl

/--
C5 counterexample: a fenced block whose body is JSON naming the unknown
tool `foo`.  The claim says the classifier yields `FencedUnparseable` and
the turn soft-falls-back; instead the classifier yields an invocation named
`foo`, and the turn answers with the unknown-tool reply — no retrieval
fallback happens (the trace holds no tool call at all).
-/
theorem json_unknown_tool_cx :
    extractToolInvocationFromFence unknownJsonResp.content =
      some ⟨.str "foo", .obj [("x", .num 1)]⟩ ∧
    extractToolInvocationFromFence unknownJsonResp.content ≠ none ∧
    chatbot (mkOracle unknownJsonResp) userHi =
      .ok ([⟨"assistant", "(Unknown tool \x27foo\x27)", []⟩], [.llmToolsCall]) := by
  have h1 : extractToolInvocationFromFence unknownJsonResp.content =
      some ⟨.str "foo", .obj [("x", .num 1)]⟩ := rfl
  exact ⟨h1, by rw [h1]; simp, rfl⟩

end Gemma3

namespace Gemma3

/-- The escalation helper performs no model call: its trace is empty or a
single vision-tool call. -/
theorem visionIfEmpty_events (o : Oracle) (q r : String) :
    (visionIfEmpty o q r).2 = [] ∨
    (visionIfEmpty o q r).2 = [.visionCall (queryArgs q)] := by
  unfold visionIfEmpty
  by_cases h : containsSub noCtxSentinel r = true
  · rw [h]
    simp only [if_true]
    cases o.vision (queryArgs q) <;> simp
  · rw [Bool.not_eq_true] at h
    rw [h]
    simp

/-- An `effCalls`-empty response has an empty `tool_calls` field. -/
theorem effCalls_nil (r : Resp) (h : effCalls r = []) : r.toolCalls = [] := by
  unfold effCalls at h
  cases hr : r.toolCalls with
  | nil => rfl
  | cons c cs => rw [hr] at h; exact absurd h (by simp)

/-- A trace that is empty or one vision call holds no model calls. -/
theorem no_model_calls_of_vision_only (q : String) (ev : List Event)
    (hev : ev = [] ∨ ev = [Event.visionCall (queryArgs q)]) :
    ev.countP isToolsBoundCall = 0 ∧ ev.countP isPlainCall = 0 ∧
    ev.countP isModelCall = 0 := by
  rcases hev with he | he <;> subst he <;>
    exact ⟨by simp [List.countP_cons, isToolsBoundCall],
           by simp [List.countP_cons, isPlainCall],
           by simp [List.countP_cons, isModelCall]⟩

/-- Shape of a normally-returning `_run_tool_and_respond`: one assistant
message without structured calls, no tools-bound model call, at most one
plain model call. -/
theorem runToolAndRespond_ok_shape (o : Oracle) (msgs : List Msg)
    (name : Option Json) (args : Json) (ms : List Msg) (evs : List Event)
    (h : runToolAndRespond o msgs name args = .ok (ms, evs)) :
    (∃ c, ms = [⟨"assistant", c, []⟩]) ∧
    evs.countP isToolsBoundCall = 0 ∧
    evs.countP isPlainCall ≤ 1 ∧
    evs.countP isModelCall ≤ 1 := by
  unfold runToolAndRespond at h
  split at h
  · -- name = some (.str s)
    split at h
    · -- rag_search
      simp only [] at h
      rcases hve : visionIfEmpty o (lastUserText msgs) (o.rag (normToolArgs args))
        with ⟨ctx, ev⟩
      rw [hve] at h
      simp only [Except.ok.injEq, Prod.mk.injEq] at h
      obtain ⟨hms, hevs⟩ := h
      obtain ⟨h1, h2, h3⟩ := no_model_calls_of_vision_only (lastUserText msgs) ev (by
        have hv := visionIfEmpty_events o (lastUserText msgs) (o.rag (normToolArgs args))
        rw [hve] at hv
        exact hv)
      subst hms hevs
      refine ⟨⟨_, rfl⟩, ?_, ?_, ?_⟩ <;>
        simp [List.countP_cons, List.countP_append, h1, h2, h3,
          isToolsBoundCall, isPlainCall, isModelCall]
    · split at h
      · -- vision_pdf_search
        simp only [] at h
        split at h
        · exact absurd h (by simp)
        · simp only [Except.ok.injEq, Prod.mk.injEq] at h
          obtain ⟨hms, hevs⟩ := h
          subst hms hevs
          refine ⟨⟨_, rfl⟩, ?_, ?_, ?_⟩ <;>
            simp [List.countP_cons, isToolsBoundCall, isPlainCall, isModelCall]
      · -- unknown string tool
        simp only [Except.ok.injEq, Prod.mk.injEq] at h
        obtain ⟨hms, hevs⟩ := h
        subst hms hevs
        exact ⟨⟨_, rfl⟩, by simp, by simp, by simp⟩
  · -- non-string or absent name
    simp only [Except.ok.injEq, Prod.mk.injEq] at h
    obtain ⟨hms, hevs⟩ := h
    subst hms hevs
    exact ⟨⟨_, rfl⟩, by simp, by simp, by simp⟩

/-- Shape of the soft fallback: one assistant message, no tools-bound
model call, exactly one plain model call. -/
theorem softFallback_shape (o : Oracle) (msgs : List Msg) (q : String) :
    (∃ c, (softFallback o msgs q).1 = [⟨"assistant", c, []⟩]) ∧
    (softFallback o msgs q).2.countP isToolsBoundCall = 0 ∧
    (softFallback o msgs q).2.countP isPlainCall ≤ 1 ∧
    (softFallback o msgs q).2.countP isModelCall ≤ 1 := by
  simp only [softFallback]
  rcases hve : visionIfEmpty o q (o.rag (queryArgs q)) with ⟨ctx, ev⟩
  obtain ⟨h1, h2, h3⟩ := no_model_calls_of_vision_only q ev (by
    have hv := visionIfEmpty_events o q (o.rag (queryArgs q))
    rw [hve] at hv
    exact hv)
  refine ⟨⟨_, rfl⟩, ?_, ?_, ?_⟩ <;>
    simp [List.countP_cons, List.countP_append, h1, h2, h3,
      isToolsBoundCall, isPlainCall, isModelCall]

end Gemma3

namespace Gemma3

/-- A tool-routed branch of `chatbot`, wrapped with the one
tools-bound model call of the turn, satisfies the turn invariant. -/
theorem map_runTool_ok (o : Oracle) (msgs : List Msg) (nm : Option Json)
    (args : Json) (ms : List Msg) (evs : List Event)
    (h : (runToolAndRespond o msgs nm args).map
           (fun r => (r.1, Event.llmToolsCall :: r.2)) = .ok (ms, evs)) :
    (∃ m, ms = [m] ∧ m.role = "assistant" ∧ m.toolCalls = [] ∧
      toolsCondition m = .terminal) ∧
    evs.countP isToolsBoundCall = 1 ∧
    evs.countP isPlainCall ≤ 1 ∧
    evs.countP isModelCall ≤ 2 := by
  cases hr : runToolAndRespond o msgs nm args with
  | error e => rw [hr] at h; exact absurd h (by simp [Except.map])
  | ok p =>
    rcases p with ⟨ms0, evs0⟩
    rw [hr] at h
    simp only [Except.map, Except.ok.injEq, Prod.mk.injEq] at h
    obtain ⟨hms, hevs⟩ := h
    obtain ⟨⟨c, hc⟩, h1, h2, h3⟩ := runToolAndRespond_ok_shape o msgs nm args ms0 evs0 hr
    subst hms hevs hc
    refine ⟨⟨_, rfl, rfl, rfl, rfl⟩, ?_, ?_, ?_⟩ <;>
      simp [List.countP_cons, h1, h2, isToolsBoundCall, isPlainCall, isModelCall] <;>
      omega

/--
C4 (amended): every turn that returns normally performs exactly one
tools-bound model invocation and at most one grounded follow-up (hence at
most two model invocations), appends exactly one assistant message, and
that message never carries structured tool calls, so `tools_condition`
routes it to the terminal edge — tool output is never re-classified or
re-routed through the tools node.  (Normal return is required: the
counterexample shows a turn aborted by an uncaught vision exception.)
-/
theorem chatbot_turn_invariant (o : Oracle) (msgs : List Msg)
    (ms : List Msg) (evs : List Event)
    (h : chatbot o msgs = .ok (ms, evs)) :
    (∃ m, ms = [m] ∧ m.role = "assistant" ∧ m.toolCalls = [] ∧
      toolsCondition m = .terminal) ∧
    evs.countP isToolsBoundCall = 1 ∧
    evs.countP isPlainCall ≤ 1 ∧
    evs.countP isModelCall ≤ 2 := by
  by_cases hA : ((o.llmTools msgs).isAI && decide ((o.llmTools msgs).content ≠ "")) = true
  · rcases hcalls : effCalls (o.llmTools msgs) with _ | ⟨call, rest⟩
    · rcases hext : extractToolInvocationFromFence (o.llmTools msgs).content
        with _ | tc
      · by_cases hft : hasToolFence (o.llmTools msgs).content = true
        · by_cases huq : lastUserText msgs = ""
          · simp only [chatbot, hA, hcalls, hext, hft, huq, ne_eq,
              not_true_eq_false, if_true, if_false, Except.map,
              Except.ok.injEq, Prod.mk.injEq] at h
            obtain ⟨hms, hevs⟩ := h
            subst hms hevs
            refine ⟨⟨respToMsg (o.llmTools msgs), rfl, rfl, ?_, ?_⟩,
              by simp [List.countP_cons, isToolsBoundCall],
              by simp [List.countP_cons, isPlainCall],
              by simp [List.countP_cons, isModelCall]⟩
            · exact effCalls_nil _ hcalls
            · unfold toolsCondition respToMsg
              rw [effCalls_nil _ hcalls]
          · simp only [chatbot, hA, hcalls, hext, hft, huq, ne_eq,
              not_false_eq_true, if_true, Except.map,
              Except.ok.injEq, Prod.mk.injEq] at h
            obtain ⟨hms, hevs⟩ := h
            obtain ⟨⟨c, hc⟩, h1, h2, h3⟩ :=
              softFallback_shape o msgs (lastUserText msgs)
            subst hms hevs
            rw [hc]
            refine ⟨⟨_, rfl, rfl, rfl, rfl⟩, ?_, ?_, ?_⟩ <;>
              simp [List.countP_cons, h1, h2, isToolsBoundCall, isPlainCall,
                isModelCall] <;>
              omega
        · simp only [Bool.not_eq_true] at hft
          simp only [chatbot, hA, hcalls, hext, hft, Bool.false_eq_true,
            if_false, if_true, Except.map, Except.ok.injEq, Prod.mk.injEq] at h
          obtain ⟨hms, hevs⟩ := h
          subst hms hevs
          refine ⟨⟨respToMsg (o.llmTools msgs), rfl, rfl, ?_, ?_⟩,
            by simp [List.countP_cons, isToolsBoundCall],
            by simp [List.countP_cons, isPlainCall],
            by simp [List.countP_cons, isModelCall]⟩
          · exact effCalls_nil _ hcalls
          · unfold toolsCondition respToMsg
            rw [effCalls_nil _ hcalls]
      · simp only [chatbot, hA, hcalls, hext, if_true] at h
        exact map_runTool_ok o msgs (some tc.name) tc.args ms evs h
    · simp only [chatbot, hA, hcalls, if_true] at h
      exact map_runTool_ok o msgs ((resolveCallName call).map Json.str)
        (resolveCallArgs call) ms evs h
  · simp only [Bool.not_eq_true] at hA
    by_cases huq : lastUserText msgs = ""
    · simp only [chatbot, hA, Bool.false_eq_true, if_false, huq, ne_eq,
        not_true_eq_false, Except.map, Except.ok.injEq, Prod.mk.injEq] at h
      obtain ⟨hms, hevs⟩ := h
      subst hms hevs
      exact ⟨⟨_, rfl, rfl, rfl, rfl⟩,
        by simp [List.countP_cons, isToolsBoundCall],
        by simp [List.countP_cons, isPlainCall],
        by simp [List.countP_cons, isModelCall]⟩
    · simp only [chatbot, hA, Bool.false_eq_true, if_false, huq, ne_eq,
        not_false_eq_true, if_true, Except.map, Except.ok.injEq,
        Prod.mk.injEq] at h
      obtain ⟨hms, hevs⟩ := h
      obtain ⟨⟨c, hc⟩, h1, h2, h3⟩ := softFallback_shape o msgs (lastUserText msgs)
      subst hms hevs
      rw [hc]
      refine ⟨⟨_, rfl, rfl, rfl, rfl⟩, ?_, ?_, ?_⟩ <;>
        simp [List.countP_cons, h1, h2, isToolsBoundCall, isPlainCall,
          isModelCall] <;>
        omega

/-- C4 witness: a plain-prose turn satisfies the invariant. -/
theorem chatbot_turn_invariant_witness :
    (∃ m, [respToMsg proseResp] = [m] ∧ m.role = "assistant" ∧
      m.toolCalls = [] ∧ toolsCondition m = .terminal) ∧
    List.countP isToolsBoundCall [Event.llmToolsCall] = 1 ∧
    List.countP isPlainCall [Event.llmToolsCall] ≤ 1 ∧
    List.countP isModelCall [Event.llmToolsCall] ≤ 2 :=
  chatbot_turn_invariant (mkOracle proseResp) userHi
    [respToMsg proseResp] [Event.llmToolsCall] rfl

/--
C4 counterexample: a fenced `vision_pdf_search` call whose direct
invocation raises (line 123 of `graph.py` is outside any `try`): the turn
aborts with the uncaught exception, so no assistant message at all is
appended — "exactly one assistant message per turn" fails.
-/
theorem chatbot_vision_raise_aborts :
    chatbot (mkOracleVisionErr visionFenceResp) userHi = .error "boom" := rfl

end Gemma3

namespace Gemma3

/--
C10 (amended): whenever PDFs exist under the docs root and at least one
page of the first one renders, only the first PDF found by the walk is
inspected (the result depends on no other PDF), at most 3 of its pages are
rendered and sent to the model, and the returned context names that one
PDF together with *sequential* page labels `1..k` for the `k` rendered
pages — these coincide with the rendered page numbers only when no earlier
page failed to render, as the counterexample shows.
-/
theorem vision_first_pdf_pages (env : VisionEnv) (q : String)
    (p : String) (ps : List String)
    (hp : env.walkFiles.filter isPdfName = p :: ps)
    (himgs : pdfToImages env p maxPagesPerPdf ≠ []) :
    visionPdfSearchRun env q =
      "CONTEXT (vision from " ++ baseName p ++ " pages " ++
        pageLabels (pdfToImages env p maxPagesPerPdf).length ++ "):\n" ++
        env.model (visionQuestion q) (pdfToImages env p maxPagesPerPdf) ∧
    (pdfToImages env p maxPagesPerPdf).length ≤ 3 := by
  constructor
  · simp only [visionPdfSearchRun, hp]
    cases himg : pdfToImages env p maxPagesPerPdf with
    | nil => exact absurd himg himgs
    | cons a as => simp
  · unfold pdfToImages
    cases env.pageCount p with
    | none => simp
    | some n =>
      calc ((List.range (min n maxPagesPerPdf)).filterMap
              (fun i => if env.renderOk p i then some (pageImagePath p i) else none)).length
          ≤ (List.range (min n maxPagesPerPdf)).length := List.length_filterMap_le _ _
        _ = min n maxPagesPerPdf := List.length_range _
        _ ≤ 3 := min_le_right _ _

/-- C10 witness: all pages render; the first PDF (`doc.pdf`) is used, its
first three pages are sent, and the labels name them. -/
theorem vision_first_pdf_pages_witness :
    visionPdfSearchRun allPagesEnv "q" =
      "CONTEXT (vision from " ++ baseName "./docs/doc.pdf" ++ " pages " ++
        pageLabels (pdfToImages allPagesEnv "./docs/doc.pdf" maxPagesPerPdf).length ++
        "):\n" ++
        allPagesEnv.model (visionQuestion "q")
          (pdfToImages allPagesEnv "./docs/doc.pdf" maxPagesPerPdf) ∧
    (pdfToImages allPagesEnv "./docs/doc.pdf" maxPagesPerPdf).length ≤ 3 :=
  vision_first_pdf_pages allPagesEnv "q" "./docs/doc.pdf" ["./docs/other.pdf"]
    rfl (by decide)

/--
C10 counterexample: page 1 of the first PDF fails to render while pages 2
and 3 render.  The claim says the returned context names the rendered page
numbers; the code instead labels them sequentially: the rendered files are
`page-2.png` and `page-3.png`, yet the context says `pages 1, 2` and
nowhere `pages 2, 3`.
-/
theorem vision_page_numbering_cx :
    pdfToImages skipFirstPageEnv "./docs/doc.pdf" maxPagesPerPdf =
      ["./page_images/doc/page-2.png", "./page_images/doc/page-3.png"] ∧
    visionPdfSearchRun skipFirstPageEnv "q" =
      "CONTEXT (vision from doc.pdf pages 1, 2):\nANS#2" ∧
    containsSub "pages 1, 2" (visionPdfSearchRun skipFirstPageEnv "q") = true ∧
    containsSub "pages 2, 3" (visionPdfSearchRun skipFirstPageEnv "q") = false := by
  exact ⟨rfl, rfl, by decide, by decide⟩

end Gemma3

namespace Gemma3

/--
C7 (amended): fenced-body parsing attempts JSON first: a body that decodes
to an object with a truthy `"name"` value N — known tool or not — yields
`FencedInvocation(N, P2)`, where P2 is the `"parameters"` value when
truthy and the empty object when it is absent or falsy (first conjunct);
parsing falls through to the call-like text patterns when the JSON attempt
fails (second conjunct), but also when it succeeds without a truthy name —
an object whose `"name"` is falsy or missing (third conjunct) or a
non-object value (fourth conjunct); the patterns are tried in fixed
declaration order, a `rag_search` match winning before the
`vision_pdf_search` pattern is consulted (fifth conjunct).
-/
theorem fence_json_first :
    (∀ (body : List Char) (kvs : List (String × Json)) (nv : Json),
      jloadsList body = some (.obj kvs) →
      jsonGet "name" kvs = some nv →
      jtruthy nv = true →
      parseFenceBody body = some ⟨nv, normParams kvs⟩) ∧
    (∀ body : List Char, jloadsList body = none →
      parseFenceBody body = patternInvocation body) ∧
    (∀ (body : List Char) (kvs : List (String × Json)),
      jloadsList body = some (.obj kvs) →
      (∀ nv, jsonGet "name" kvs = some nv → jtruthy nv = false) →
      parseFenceBody body = patternInvocation body) ∧
    (∀ (body : List Char) (v : Json),
      jloadsList body = some v → (∀ kvs, v ≠ Json.obj kvs) →
      parseFenceBody body = patternInvocation body) ∧
    (∀ (body cap : List Char), searchCall ragChars body = some cap →
      patternInvocation body =
        some ⟨.str "rag_search", .obj [("query", .str cap.asString)]⟩) := by
  refine ⟨?_, ?_, ?_, ?_, ?_⟩
  · intro body kvs nv hj hname ht
    simp only [parseFenceBody, hj, hname, ht, if_true]
  · intro body hj
    exact parseFenceBody_fallthrough body (Or.inl hj)
  · intro body kvs hj hname
    exact parseFenceBody_fallthrough body (Or.inr (Or.inl ⟨kvs, hj, hname⟩))
  · intro body v hj hobj
    exact parseFenceBody_fallthrough body (Or.inr (Or.inr ⟨v, hj, hobj⟩))
  · intro body cap hc
    simp only [patternInvocation, hc]

/-- C7 witness: the conjuncts at concrete fenced bodies — truthy
parameters passed through, `null` parameters normalised to the empty
object, decode failure falling to the patterns, a falsy name falling to
the patterns even though the body is valid JSON, and the `rag_search`
pattern winning. -/
theorem fence_json_first_witness :
    parseFenceBody "\x7b\"name\": \"rag_search\", \"parameters\": \x7b\"query\": \"refund\"\x7d\x7d".toList =
      some ⟨.str "rag_search", .obj [("query", .str "refund")]⟩ ∧
    parseFenceBody nullParamsBody =
      some ⟨.str "rag_search", .obj ([] : List (String × Json))⟩ ∧
    parseFenceBody "hello there".toList = patternInvocation "hello there".toList ∧
    parseFenceBody falsyNameBody =
      some ⟨.str "rag_search", .obj [("query", .str "hi")]⟩ ∧
    patternInvocation "rag_search(\"q\")".toList =
      some ⟨.str "rag_search", .obj [("query", .str "q")]⟩ := by
  have hfalsy : ∀ nv, jsonGet "name"
      [("name", Json.str ""), ("parameters", Json.str " rag_search(\x27hi\x27)")] =
        some nv → jtruthy nv = false := by
    intro nv hv
    injection (show some (Json.str "") = some nv from hv) with h2
    rw [← h2]
    decide
  refine ⟨?_, ?_, ?_, ?_, ?_⟩
  · exact fence_json_first.1
      "\x7b\"name\": \"rag_search\", \"parameters\": \x7b\"query\": \"refund\"\x7d\x7d".toList
      [("name", .str "rag_search"), ("parameters", .obj [("query", .str "refund")])]
      (.str "rag_search") rfl rfl rfl
  · exact fence_json_first.1 nullParamsBody
      [("name", .str "rag_search"), ("parameters", .null)]
      (.str "rag_search") rfl rfl rfl
  · exact fence_json_first.2.1 "hello there".toList rfl
  · rw [fence_json_first.2.2.1 falsyNameBody
      [("name", Json.str ""), ("parameters", Json.str " rag_search(\x27hi\x27)")]
      rfl hfalsy]
    rfl
  · exact fence_json_first.2.2.2.2 "rag_search(\"q\")".toList "q".toList rfl

/--
C7 counterexample: two fenced bodies refuting the claim as stated.  The
body naming `rag_search` with `"parameters": null` parses as JSON with a
known name N and P = null, yet the classifier yields the empty object as
args, not P.  And the body with a falsy `"name"` and a pattern-shaped
string inside parses as JSON — the JSON attempt *succeeds* — yet parsing
still falls through to the text patterns and yields a `rag_search`
invocation, so the fall-through is not confined to JSON failure.
-/
theorem fence_json_params_cx :
    jloadsList nullParamsBody =
      some (.obj [("name", .str "rag_search"), ("parameters", .null)]) ∧
    parseFenceBody nullParamsBody =
      some ⟨.str "rag_search", .obj ([] : List (String × Json))⟩ ∧
    Json.obj ([] : List (String × Json)) ≠ Json.null ∧
    jloadsList falsyNameBody =
      some (.obj [("name", .str ""),
        ("parameters", .str " rag_search(\x27hi\x27)")]) ∧
    parseFenceBody falsyNameBody =
      some ⟨.str "rag_search", .obj [("query", .str "hi")]⟩ :=
  ⟨rfl, rfl, fun h => Json.noConfusion h, rfl, rfl⟩

end Gemma3

namespace Gemma3

/-- Running `takeWhile` over a block that satisfies `p` followed by a first
failure takes exactly the block. -/
theorem takeWhile_all_cons (p : Char → Bool) (xs : List Char) (y : Char)
    (ys : List Char) (hall : ∀ c ∈ xs, p c = true) (hy : p y = false) :
    (xs ++ y :: ys).takeWhile p = xs := by
  induction xs with
  | nil => simp [List.takeWhile_cons, hy]
  | cons a as ih =>
    have ha : p a = true := hall a (by simp)
    simp only [List.cons_append, List.takeWhile_cons, ha, if_true]
    rw [ih (fun c hc => hall c (by simp [hc]))]

/-- A list is a `isPrefixOf`-prefix of itself extended. -/
theorem isPrefixOf_self_append (l r : List Char) : l.isPrefixOf (l ++ r) = true := by
  induction l with
  | nil => simp [List.isPrefixOf]
  | cons a as ih => simp [List.isPrefixOf, ih]

/-- The quoted-capture matcher on a well-formed `"t")…` tail captures `t`
verbatim. -/
theorem matchQuoted_exact (t rest : List Char) (hne : t ≠ [])
    (hq : ∀ c ∈ t, isQuote c = false) :
    matchQuoted ('"' :: (t ++ ('"' :: (')' :: rest)))) = some t := by
  have hcap : (t ++ ('"' :: (')' :: rest))).takeWhile (fun c => !(isQuote c)) = t :=
    takeWhile_all_cons _ t '"' _ (fun c hc => by simp [hq c hc]) (by decide)
  simp only [matchQuoted, hcap, List.drop_left, hne, if_false, if_true]
  simp [isQuote, isWs, List.dropWhile_cons, hne]

end Gemma3

namespace Gemma3

/-- The paren matcher on a direct `("t")…` tail captures `t`. -/
theorem matchParen_direct (t rest : List Char) (hne : t ≠ [])
    (hq : ∀ c ∈ t, isQuote c = false) :
    matchParen ('(' :: ('"' :: (t ++ ('"' :: (')' :: rest))))) = some t := by
  have hquery : "query".toList = ['q', 'u', 'e', 'r', 'y'] := rfl
  simp only [matchParen, List.dropWhile_cons, hquery]
  simp only [isWs, List.isPrefixOf]
  simp only [show ((('(' : Char) = ' ' || '(' = '\t' || '(' = '\n' || '(' = '\r' ||
    '(' = '\x0b' || '(' = '\x0c') : Bool) = false from by decide]
  simp [matchQuoted_exact t rest hne hq, isWs]

/-- The paren matcher on a `(query="t")…` tail captures `t`. -/
theorem matchParen_query (t rest : List Char) (hne : t ≠ [])
    (hq : ∀ c ∈ t, isQuote c = false) :
    matchParen ('(' :: ('q' :: ('u' :: ('e' :: ('r' :: ('y' :: ('=' ::
      ('"' :: (t ++ ('"' :: (')' :: rest))))))))))) = some t := by
  have hquery : "query".toList = ['q', 'u', 'e', 'r', 'y'] := rfl
  simp only [matchParen, List.dropWhile_cons, hquery]
  simp [isWs, List.isPrefixOf, matchQuoted_exact t rest hne hq]

/-- Anchored call match at the head: strip the tool literal. -/
theorem matchCallAt_self (tool rest : List Char) :
    matchCallAt tool (tool ++ rest) = matchAfterName rest := by
  unfold matchCallAt
  rw [isPrefixOf_self_append, if_pos rfl, List.drop_left]

/-- A successful anchored match at position zero wins the search. -/
theorem searchCall_head (tool body cap : List Char)
    (h : matchCallAt tool body = some cap) :
    searchCall tool body = some cap := by
  unfold searchCall
  rw [h]

end Gemma3

namespace Gemma3

/-- A successful quoted-capture needs at least two quote characters. -/
theorem matchQuoted_two_quotes (r cap : List Char)
    (h : matchQuoted r = some cap) : 2 ≤ r.countP isQuote := by
  unfold matchQuoted at h
  split at h
  · exact absurd h (by simp)
  · rename_i q r2
    split at h
    · rename_i hq
      simp only [] at h
      split at h
      · exact absurd h (by simp)
      · split at h
        · exact absurd h (by simp)
        · rename_i q2 r3 hdrop
          split at h
          · rename_i hq2
            have hsub : (q2 :: r3).Sublist r2 := by
              rw [← hdrop]
              exact List.drop_sublist _ _
            have h1 : 1 ≤ (q2 :: r3).countP isQuote := by
              simp [List.countP_cons, hq2]
            have h2 : (q2 :: r3).countP isQuote ≤ r2.countP isQuote :=
              hsub.countP_le _
            have h3 : (q :: r2).countP isQuote = r2.countP isQuote + 1 := by
              simp [List.countP_cons, hq]
            omega
          · exact absurd h (by simp)
    · exact absurd h (by simp)

/-- A successful paren match needs at least two quote characters. -/
theorem matchParen_two_quotes (r cap : List Char)
    (h : matchParen r = some cap) : 2 ≤ r.countP isQuote := by
  have hdw : (r.dropWhile isWs).Sublist r := List.dropWhile_sublist _
  unfold matchParen at h
  split at h
  · rename_i r2 hr2
    have hr2sub : r2.Sublist r := by
      have hc : ('(' :: r2).Sublist r := by rw [← hr2]; exact hdw
      exact List.sublist_of_cons_sublist hc
    have hr3sub : (r2.dropWhile isWs).Sublist r :=
      (List.dropWhile_sublist _).trans hr2sub
    have hcount : ∀ (x : List Char), x.Sublist r → matchQuoted x = some cap →
        2 ≤ r.countP isQuote := by
      intro x hx hm
      exact le_trans (matchQuoted_two_quotes x cap hm) (hx.countP_le _)
    simp only [] at h
    split at h
    · split at h
      · rename_i r5 hr5
        have hr5sub : r5.Sublist r := by
          have hdrop : ((r2.dropWhile isWs).drop 5).Sublist r :=
            (List.drop_sublist _ _).trans hr3sub
          have hc : ('=' :: r5).Sublist r := by
            rw [← hr5]
            exact (List.dropWhile_sublist _).trans hdrop
          exact List.sublist_of_cons_sublist hc
        split at h
        · rename_i cap2 hm
          simp only [Option.some.injEq] at h
          subst h
          exact hcount _ ((List.dropWhile_sublist _).trans hr5sub) hm
        · exact hcount _ hr3sub h
      · exact hcount _ hr3sub h
    · exact hcount _ hr3sub h
  · exact absurd h (by simp)

/-- A successful post-name match needs at least two quote characters. -/
theorem matchAfterName_two_quotes (r cap : List Char)
    (h : matchAfterName r = some cap) : 2 ≤ r.countP isQuote := by
  unfold matchAfterName at h
  split at h
  · rename_i r2
    simp only [] at h
    split at h
    · exact matchParen_two_quotes _ _ h
    · split at h
      · rename_i cap2 hm
        simp only [Option.some.injEq] at h
        subst h
        have hsub : (r2.drop (r2.takeWhile isWordChar).length).Sublist ('.' :: r2) :=
          (List.drop_sublist _ _).trans (List.sublist_cons_self _ _)
        exact le_trans (matchParen_two_quotes _ _ hm) (hsub.countP_le _)
      · exact matchParen_two_quotes _ _ h
  · exact matchParen_two_quotes _ _ h

/-- A successful anchored call match needs at least two quote characters. -/
theorem matchCallAt_two_quotes (tool l cap : List Char)
    (h : matchCallAt tool l = some cap) : 2 ≤ l.countP isQuote := by
  unfold matchCallAt at h
  split at h
  · exact le_trans (matchAfterName_two_quotes _ _ h)
      ((List.drop_sublist _ _).countP_le _)
  · exact absurd h (by simp)

/-- The position scan finds nothing in a region with at most one quote. -/
theorem searchCallAux_none (tool : List Char) (l : List Char)
    (h : l.countP isQuote ≤ 1) : searchCallAux tool l = none := by
  induction l with
  | nil => rfl
  | cons c rest ih =>
    have hrest : rest.countP isQuote ≤ 1 := by
      have := List.countP_cons isQuote c rest
      omega
    have hmc : matchCallAt tool rest = none := by
      cases hm : matchCallAt tool rest with
      | none => rfl
      | some cap =>
        have := matchCallAt_two_quotes tool rest cap hm
        omega
    unfold searchCallAux
    split
    · rw [hmc, ih hrest]
    · exact ih hrest

/-- The position scan skips a prefix holding no whitespace and no `;`. -/
theorem searchCallAux_append (tool pre l : List Char)
    (hpre : ∀ c ∈ pre, isWs c = false ∧ c ≠ ';') :
    searchCallAux tool (pre ++ l) = searchCallAux tool l := by
  induction pre with
  | nil => rfl
  | cons a as ih =>
    obtain ⟨ha1, ha2⟩ := hpre a (by simp)
    have hstep : searchCallAux tool (a :: (as ++ l)) = searchCallAux tool (as ++ l) := by
      simp only [searchCallAux]
      rw [if_neg (by simp [ha1, ha2])]
    rw [List.cons_append, hstep, ih (fun c hc => hpre c (by simp [hc]))]

end Gemma3

namespace Gemma3

/-- A body starting with `r` is not JSON: the decoder fails at once. -/
theorem jloadsList_r_fail (rest : List Char) : jloadsList ('r' :: rest) = none := rfl

/-- A body starting with `v` is not JSON: the decoder fails at once. -/
theorem jloadsList_v_fail (rest : List Char) : jloadsList ('v' :: rest) = none := rfl

/-- Any body starting with the `rag_search` literal fails the JSON attempt. -/
theorem jloadsList_rag_append (x : List Char) : jloadsList (ragChars ++ x) = none :=
  jloadsList_r_fail ("ag_search".toList ++ x)

/-- Any body starting with the `vision_pdf_search` literal fails the JSON
attempt. -/
theorem jloadsList_vision_append (x : List Char) : jloadsList (visionChars ++ x) = none :=
  jloadsList_v_fail ("ision_pdf_search".toList ++ x)

/-- The `rag_search` pattern cannot match inside a
`vision_pdf_search("t")` body whose quoted text holds no quotes: past the
opening quote at most one quote character remains. -/
theorem searchCall_rag_none_direct (t : List Char)
    (hq : ∀ c ∈ t, isQuote c = false) :
    searchCall ragChars (visionChars ++ ('(' :: ('"' :: (t ++ ['"', ')'])))) = none := by
  have hv : visionChars = ['v', 'i', 's', 'i', 'o', 'n', '_', 'p', 'd', 'f', '_',
      's', 'e', 'a', 'r', 'c', 'h'] := rfl
  have hr : ragChars = ['r', 'a', 'g', '_', 's', 'e', 'a', 'r', 'c', 'h'] := rfl
  have hcount : (t ++ ['"', ')']).countP isQuote ≤ 1 := by
    rw [List.countP_append]
    have h0 : t.countP isQuote = 0 :=
      List.countP_eq_zero.mpr (fun c hc => by simp [hq c hc])
    simp [h0, List.countP_cons, isQuote]
  have h0 : matchCallAt ragChars
      (visionChars ++ ('(' :: ('"' :: (t ++ ['"', ')'])))) = none := by
    unfold matchCallAt
    rw [if_neg ?hpre]
    case hpre =>
      rw [hv, hr]
      simp [List.isPrefixOf]
  unfold searchCall
  rw [h0]
  have hsplit : visionChars ++ ('(' :: ('"' :: (t ++ ['"', ')']))) =
      (visionChars ++ ['(', '"']) ++ (t ++ ['"', ')']) := by
    simp
  rw [hsplit, searchCallAux_append _ _ _ (by rw [hv]; decide),
    searchCallAux_none _ _ hcount]

/-- The same, for the `vision_pdf_search(query="t")` body shape. -/
theorem searchCall_rag_none_query (t : List Char)
    (hq : ∀ c ∈ t, isQuote c = false) :
    searchCall ragChars
      (visionChars ++ ("(query=\"".toList ++ (t ++ ['"', ')']))) = none := by
  have hv : visionChars = ['v', 'i', 's', 'i', 'o', 'n', '_', 'p', 'd', 'f', '_',
      's', 'e', 'a', 'r', 'c', 'h'] := rfl
  have hr : ragChars = ['r', 'a', 'g', '_', 's', 'e', 'a', 'r', 'c', 'h'] := rfl
  have hqc : "(query=\"".toList = ['(', 'q', 'u', 'e', 'r', 'y', '=', '"'] := rfl
  have hcount : (t ++ ['"', ')']).countP isQuote ≤ 1 := by
    rw [List.countP_append]
    have h0 : t.countP isQuote = 0 :=
      List.countP_eq_zero.mpr (fun c hc => by simp [hq c hc])
    simp [h0, List.countP_cons, isQuote]
  have h0 : matchCallAt ragChars
      (visionChars ++ ("(query=\"".toList ++ (t ++ ['"', ')']))) = none := by
    unfold matchCallAt
    rw [if_neg ?hpre]
    case hpre =>
      rw [hv, hr]
      simp [List.isPrefixOf]
  unfold searchCall
  rw [h0]
  have hsplit : visionChars ++ ("(query=\"".toList ++ (t ++ ['"', ')'])) =
      (visionChars ++ "(query=\"".toList) ++ (t ++ ['"', ')']) := by
    simp
  rw [hsplit, searchCallAux_append _ _ _ (by rw [hv, hqc]; decide),
    searchCallAux_none _ _ hcount]

end Gemma3

namespace Gemma3

/--
C8: for every fenced body of the exact shape `toolname("text")` or
`toolname(query="text")` with a known tool name and a non-empty quoted
text containing no quote characters, the classifier extracts
`{"query": "text"}` with the text byte-for-byte identical to the quoted
text, for all four tool-name/shape combinations.
-/
theorem fence_pattern_verbatim (t : List Char) (hne : t ≠ [])
    (hq : ∀ c ∈ t, isQuote c = false) :
    parseFenceBody (ragChars ++ ('(' :: ('"' :: (t ++ ['"', ')'])))) =
      some ⟨.str "rag_search", .obj [("query", .str t.asString)]⟩ ∧
    parseFenceBody (ragChars ++ ("(query=\"".toList ++ (t ++ ['"', ')']))) =
      some ⟨.str "rag_search", .obj [("query", .str t.asString)]⟩ ∧
    parseFenceBody (visionChars ++ ('(' :: ('"' :: (t ++ ['"', ')'])))) =
      some ⟨.str "vision_pdf_search", .obj [("query", .str t.asString)]⟩ ∧
    parseFenceBody (visionChars ++ ("(query=\"".toList ++ (t ++ ['"', ')']))) =
      some ⟨.str "vision_pdf_search", .obj [("query", .str t.asString)]⟩ := by
  have hragd : searchCall ragChars (ragChars ++ ('(' :: ('"' :: (t ++ ['"', ')'])))) =
      some t := by
    apply searchCall_head
    rw [matchCallAt_self]
    show matchParen ('(' :: ('"' :: (t ++ ('"' :: (')' :: []))))) = some t
    exact matchParen_direct t [] hne hq
  have hragq : searchCall ragChars
      (ragChars ++ ("(query=\"".toList ++ (t ++ ['"', ')']))) = some t := by
    apply searchCall_head
    rw [matchCallAt_self]
    show matchParen ('(' :: ('q' :: ('u' :: ('e' :: ('r' :: ('y' :: ('=' ::
      ('"' :: (t ++ ('"' :: (')' :: []))))))))))) = some t
    exact matchParen_query t [] hne hq
  have hvisd : searchCall visionChars
      (visionChars ++ ('(' :: ('"' :: (t ++ ['"', ')'])))) = some t := by
    apply searchCall_head
    rw [matchCallAt_self]
    show matchParen ('(' :: ('"' :: (t ++ ('"' :: (')' :: []))))) = some t
    exact matchParen_direct t [] hne hq
  have hvisq : searchCall visionChars
      (visionChars ++ ("(query=\"".toList ++ (t ++ ['"', ')']))) = some t := by
    apply searchCall_head
    rw [matchCallAt_self]
    show matchParen ('(' :: ('q' :: ('u' :: ('e' :: ('r' :: ('y' :: ('=' ::
      ('"' :: (t ++ ('"' :: (')' :: []))))))))))) = some t
    exact matchParen_query t [] hne hq
  refine ⟨?_, ?_, ?_, ?_⟩
  · unfold parseFenceBody
    rw [jloadsList_rag_append]
    show patternInvocation _ = _
    unfold patternInvocation
    rw [hragd]
  · unfold parseFenceBody
    rw [jloadsList_rag_append]
    show patternInvocation _ = _
    unfold patternInvocation
    rw [hragq]
  · unfold parseFenceBody
    rw [jloadsList_vision_append]
    show patternInvocation _ = _
    unfold patternInvocation
    rw [searchCall_rag_none_direct t hq, hvisd]
  · unfold parseFenceBody
    rw [jloadsList_vision_append]
    show patternInvocation _ = _
    unfold patternInvocation
    rw [searchCall_rag_none_query t hq, hvisq]

/-- C8 witness: the text `refund: 30 days?!` (punctuation included) comes
through byte-for-byte in all four shapes. -/
theorem fence_pattern_verbatim_witness :
    parseFenceBody "rag_search(\"refund: 30 days?!\")".toList =
      some ⟨.str "rag_search", .obj [("query", .str "refund: 30 days?!")]⟩ ∧
    parseFenceBody "vision_pdf_search(query=\"refund: 30 days?!\")".toList =
      some ⟨.str "vision_pdf_search", .obj [("query", .str "refund: 30 days?!")]⟩ := by
  have h := fence_pattern_verbatim "refund: 30 days?!".toList (by decide) (by decide)
  exact ⟨h.1, h.2.2.2⟩

end Gemma3
